import Mathlib

/-!
# Verification of the ChitFund pool ledger (src/src/contracts/chit.sol)

Shallow embedding of the Solidity contract `ChitFund`. Addresses are
modelled as naturals, `uint256` quantities as `Nat` (no arithmetic in the
contract can overflow on any feasible trace: the only arithmetic is the
counter increment and loop indices bounded by it), Solidity mappings as
total functions with the zero-initialised default value, and `require`
failures as `Except.error` carrying a typed error; a reverted call leaves
the pre-state in force, which the trace semantics (`step`) makes explicit.
-/

/-- Solidity `address`, modelled abstractly as a natural number. -/
abbrev Address := Nat

/-- The `Chit` struct of the contract (one pool record). -/
structure Chit where
  id : Nat
  title : String
  description : String
  totalAmount : Nat
  installmentAmount : Nat
  deadline : Nat
  createdAt : Nat
  participantLimit : Nat
  participants : List Address
  isCompleted : Bool
deriving Repr, DecidableEq

/-- The zero-initialised `Chit` a Solidity mapping yields for an unwritten key. -/
def defaultChit : Chit :=
  { id := 0, title := "", description := "", totalAmount := 0,
    installmentAmount := 0, deadline := 0, createdAt := 0,
    participantLimit := 0, participants := [], isCompleted := false }

/-- Contract storage: the counter and the two mappings
(`chits` and `userChits`), each total with zero defaults. -/
structure ChitFund where
  chitCounter : Nat
  chits : Nat → Chit
  userChits : Address → List Nat

/-- Storage right after deployment: counter 0, both mappings empty. -/
def ChitFund.init : ChitFund :=
  { chitCounter := 0, chits := fun _ => defaultChit, userChits := fun _ => [] }

/-- The typed failure of each `require` in the contract, named after the
spec's error taxonomy (in the order the messages appear in the source). -/
inductive ChitError where
  | InvalidInput     -- "Title is required." / "Description is required." / amount and limit checks
  | InvalidDeadline  -- "Deadline must be in the future."
  | NotFound         -- "Chit does not exist."
  | Expired          -- "Cannot join after deadline."
  | Full             -- "Chit is full."
  | AlreadyJoined    -- "Already joined this chit."
deriving Repr, DecidableEq

/-- Embeds `_isParticipant(_chitId, _participant)`: linear scan of
`chits[_chitId].participants` for `_participant`. -/
def isParticipant (s : ChitFund) (chitId : Nat) (participant : Address) : Bool :=
  (s.chits chitId).participants.any (fun p => p = participant)

/-- Embeds `createChit(_title, _description, _totalAmount, _installmentAmount,
_participantLimit, _deadline)`, with `block.timestamp` passed as `now` and
`msg.sender` as `sender`. The `require`s appear in source order; on success
the new state and the freshly allocated id are returned. The new record is
built on the storage slot `chits[newChitId]` exactly as the source does:
fields are assigned, `participants` is pushed onto, and `isCompleted` is
left as stored. -/
def createChit (s : ChitFund) (now : Nat) (sender : Address)
    (title description : String)
    (totalAmount installmentAmount participantLimit deadline : Nat) :
    Except ChitError (ChitFund × Nat) :=
  if title = "" then .error .InvalidInput            -- require(bytes(_title).length > 0)
  else if description = "" then .error .InvalidInput -- require(bytes(_description).length > 0)
  else if totalAmount = 0 then .error .InvalidInput  -- require(_totalAmount > 0)
  else if installmentAmount = 0 then .error .InvalidInput -- require(_installmentAmount > 0)
  else if participantLimit = 0 then .error .InvalidInput  -- require(_participantLimit > 0)
  else if ¬ now < deadline then .error .InvalidDeadline   -- require(_deadline > block.timestamp)
  else
    let newChitId := s.chitCounter + 1
    let slot := s.chits newChitId
    let newChit : Chit :=
      { id := newChitId, title := title, description := description,
        totalAmount := totalAmount, installmentAmount := installmentAmount,
        deadline := deadline, createdAt := now,
        participantLimit := participantLimit,
        participants := slot.participants ++ [sender],
        isCompleted := slot.isCompleted }
    .ok ({ chitCounter := newChitId,
           chits := fun k => if k = newChitId then newChit else s.chits k,
           userChits := fun a =>
             if a = sender then s.userChits a ++ [newChitId] else s.userChits a },
         newChitId)

/-- Embeds `joinChit(_chitId)`, with `block.timestamp` as `now` and `msg.sender`
as `sender`. The four `require`s appear in source order: existence
(`chit.id != 0`), deadline, capacity, duplicate membership. -/
def joinChit (s : ChitFund) (now : Nat) (sender : Address) (chitId : Nat) :
    Except ChitError ChitFund :=
  let chit := s.chits chitId
  if chit.id = 0 then .error .NotFound
  else if ¬ now < chit.deadline then .error .Expired
  else if ¬ chit.participants.length < chit.participantLimit then .error .Full
  else if isParticipant s chitId sender then .error .AlreadyJoined
  else .ok
    { s with
      chits := fun k =>
        if k = chitId then { chit with participants := chit.participants ++ [sender] }
        else s.chits k,
      userChits := fun a =>
        if a = sender then s.userChits a ++ [chitId] else s.userChits a }

/-- Embeds `getParticipants(_chitId)`: returns `chits[_chitId].participants`
unconditionally (a `view` function; it cannot revert and has no side
effects on the storage it reads). -/
def getParticipants (s : ChitFund) (chitId : Nat) : List Address :=
  (s.chits chitId).participants

/-- Embeds `getChits()`: builds the array `[chits[1], …, chits[chitCounter]]`
(the loop runs `i = 1 .. chitCounter` and writes `chitList[i-1] = chits[i]`). -/
def getChits (s : ChitFund) : List Chit :=
  (List.range s.chitCounter).map (fun i => s.chits (i + 1))

/-- Modelled from the spec: `getParticipants(id)` as §4.4 describes it,
failing with `NotFound` when no pool has the id and returning the stored
sequence otherwise. Used only to compare the source's `getParticipants`
against the spec's words. -/
def getParticipantsSpec (s : ChitFund) (chitId : Nat) :
    Except ChitError (List Address) :=
  if (s.chits chitId).id = 0 then .error .NotFound
  else .ok (s.chits chitId).participants

/-- One external call to a mutating entry point of the contract, with the
ambient `block.timestamp` and `msg.sender` it executes under. -/
inductive Op where
  | create (now : Nat) (sender : Address) (title description : String)
      (totalAmount installmentAmount participantLimit deadline : Nat)
  | join (now : Nat) (sender : Address) (chitId : Nat)

/-- Run one call: the post-state, plus the id returned when the call was a
successful creation. A reverted call (an `Except.error`) leaves the state
unchanged. -/
def applyOp (s : ChitFund) : Op → ChitFund × Option Nat
  | .create now sender t d ta ia pl dl =>
    match createChit s now sender t d ta ia pl dl with
    | .ok (s', newId) => (s', some newId)
    | .error _ => (s, none)
  | .join now sender chitId =>
    match joinChit s now sender chitId with
    | .ok s' => (s', none)
    | .error _ => (s, none)

/-- The post-state of one call. -/
def step (s : ChitFund) (op : Op) : ChitFund :=
  (applyOp s op).1

/-- Run a sequence of calls from `s`. -/
def execFrom (s : ChitFund) (ops : List Op) : ChitFund :=
  ops.foldl step s

/-- Run a sequence of calls from the deployed contract. -/
def execTrace (ops : List Op) : ChitFund :=
  execFrom ChitFund.init ops

/-- The ids handed out by the successful creations of a call sequence,
in commit order. -/
def runIds (s : ChitFund) : List Op → List Nat
  | [] => []
  | op :: rest =>
    match applyOp s op with
    | (s', some newId) => newId :: runIds s' rest
    | (s', none) => runIds s' rest

/-! ## Characterisation lemmas for the two mutating entry points -/

theorem isParticipant_iff (s : ChitFund) (chitId : Nat) (a : Address) :
    isParticipant s chitId a = true ↔ a ∈ (s.chits chitId).participants := by
  simp [isParticipant]

/-- Everything a successful `createChit` tells us: the six `require`s
passed, the returned id is `chitCounter + 1`, and the post-state is the
one the assignment block builds. -/
theorem createChit_ok_elim {s s' : ChitFund} {now : Nat} {sender : Address}
    {t d : String} {ta ia pl dl newId : Nat}
    (h : createChit s now sender t d ta ia pl dl = .ok (s', newId)) :
    t ≠ "" ∧ d ≠ "" ∧ ta ≠ 0 ∧ ia ≠ 0 ∧ pl ≠ 0 ∧ now < dl ∧
    newId = s.chitCounter + 1 ∧
    s' = { chitCounter := s.chitCounter + 1,
           chits := fun k => if k = s.chitCounter + 1 then
               { id := s.chitCounter + 1, title := t, description := d,
                 totalAmount := ta, installmentAmount := ia, deadline := dl,
                 createdAt := now, participantLimit := pl,
                 participants := (s.chits (s.chitCounter + 1)).participants ++ [sender],
                 isCompleted := (s.chits (s.chitCounter + 1)).isCompleted }
             else s.chits k,
           userChits := fun a => if a = sender then s.userChits a ++ [s.chitCounter + 1]
             else s.userChits a } := by
  by_cases h1 : t = ""
  · simp [createChit, h1] at h
  by_cases h2 : d = ""
  · simp [createChit, h1, h2] at h
  by_cases h3 : ta = 0
  · simp [createChit, h1, h2, h3] at h
  by_cases h4 : ia = 0
  · simp [createChit, h1, h2, h3, h4] at h
  by_cases h5 : pl = 0
  · simp [createChit, h1, h2, h3, h4, h5] at h
  by_cases h6 : now < dl
  · simp only [createChit, h1, h2, h3, h4, h5, h6, if_neg, if_pos, not_true_eq_false,
      ite_false, ite_true, Except.ok.injEq, Prod.mk.injEq] at h
    exact ⟨h1, h2, h3, h4, h5, h6, h.2.symm, h.1.symm⟩
  · simp [createChit, h1, h2, h3, h4, h5, h6] at h

/-- A failed `createChit` reported `InvalidInput` exactly when one of the
five input `require`s failed. -/
theorem createChit_invalidInput_iff {s : ChitFund} {now : Nat} {sender : Address}
    {t d : String} {ta ia pl dl : Nat} :
    createChit s now sender t d ta ia pl dl = .error .InvalidInput ↔
      (t = "" ∨ d = "" ∨ ta = 0 ∨ ia = 0 ∨ pl = 0) := by
  by_cases h1 : t = "" <;> by_cases h2 : d = "" <;> by_cases h3 : ta = 0 <;>
    by_cases h4 : ia = 0 <;> by_cases h5 : pl = 0 <;> by_cases h6 : now < dl <;>
    simp [createChit, h1, h2, h3, h4, h5, h6]

/-- A failed `createChit` reported `InvalidDeadline` exactly when the five
input `require`s passed and the deadline was not in the future. -/
theorem createChit_invalidDeadline_iff {s : ChitFund} {now : Nat} {sender : Address}
    {t d : String} {ta ia pl dl : Nat} :
    createChit s now sender t d ta ia pl dl = .error .InvalidDeadline ↔
      (t ≠ "" ∧ d ≠ "" ∧ ta ≠ 0 ∧ ia ≠ 0 ∧ pl ≠ 0 ∧ ¬ now < dl) := by
  by_cases h1 : t = "" <;> by_cases h2 : d = "" <;> by_cases h3 : ta = 0 <;>
    by_cases h4 : ia = 0 <;> by_cases h5 : pl = 0 <;> by_cases h6 : now < dl <;>
    simp [createChit, h1, h2, h3, h4, h5, h6]

/-- Everything a successful `joinChit` tells us: the four `require`s
passed and the post-state appends `sender` to the pool and the pool id to
the sender's index. -/
theorem joinChit_ok_elim {s s' : ChitFund} {now : Nat} {sender : Address} {cid : Nat}
    (h : joinChit s now sender cid = .ok s') :
    (s.chits cid).id ≠ 0 ∧ now < (s.chits cid).deadline ∧
    (s.chits cid).participants.length < (s.chits cid).participantLimit ∧
    sender ∉ (s.chits cid).participants ∧
    s' = { s with
           chits := fun k => if k = cid then
               { s.chits cid with
                 participants := (s.chits cid).participants ++ [sender] }
             else s.chits k,
           userChits := fun a => if a = sender then s.userChits a ++ [cid]
             else s.userChits a } := by
  by_cases h1 : (s.chits cid).id = 0
  · simp [joinChit, h1] at h
  by_cases h2 : now < (s.chits cid).deadline
  · by_cases h3 : (s.chits cid).participants.length < (s.chits cid).participantLimit
    · by_cases h4 : isParticipant s cid sender
      · simp [joinChit, h1, h2, h3, h4] at h
      · have h4f : isParticipant s cid sender = false := by
          cases hb : isParticipant s cid sender
          · rfl
          · exact absurd hb h4
        refine ⟨h1, h2, h3, fun hmem => h4 ((isParticipant_iff s cid sender).mpr hmem), ?_⟩
        simp [joinChit, h1, h2, h3, h4f] at h
        exact h.symm
    · simp [joinChit, h1, h2, h3] at h
  · simp [joinChit, h1, h2] at h

theorem joinChit_notFound {s : ChitFund} {now : Nat} {sender : Address} {cid : Nat}
    (h : (s.chits cid).id = 0) :
    joinChit s now sender cid = .error .NotFound := by
  simp [joinChit, h]

theorem joinChit_expired {s : ChitFund} {now : Nat} {sender : Address} {cid : Nat}
    (h1 : (s.chits cid).id ≠ 0) (h2 : ¬ now < (s.chits cid).deadline) :
    joinChit s now sender cid = .error .Expired := by
  simp [joinChit, h1, h2]

theorem joinChit_full {s : ChitFund} {now : Nat} {sender : Address} {cid : Nat}
    (h1 : (s.chits cid).id ≠ 0) (h2 : now < (s.chits cid).deadline)
    (h3 : ¬ (s.chits cid).participants.length < (s.chits cid).participantLimit) :
    joinChit s now sender cid = .error .Full := by
  simp [joinChit, h1, h2, h3]

theorem joinChit_alreadyJoined {s : ChitFund} {now : Nat} {sender : Address} {cid : Nat}
    (h1 : (s.chits cid).id ≠ 0) (h2 : now < (s.chits cid).deadline)
    (h3 : (s.chits cid).participants.length < (s.chits cid).participantLimit)
    (h4 : sender ∈ (s.chits cid).participants) :
    joinChit s now sender cid = .error .AlreadyJoined := by
  simp [joinChit, h1, h2, h3, (isParticipant_iff s cid sender).mpr h4]

/-- The call `joinChit` reports `NotFound` exactly when the stored record's `id`
field is zero. -/
theorem joinChit_notFound_iff {s : ChitFund} {now : Nat} {sender : Address} {cid : Nat} :
    joinChit s now sender cid = .error .NotFound ↔ (s.chits cid).id = 0 := by
  constructor
  · intro h
    by_cases h1 : (s.chits cid).id = 0
    · exact h1
    by_cases h2 : now < (s.chits cid).deadline
    · by_cases h3 : (s.chits cid).participants.length < (s.chits cid).participantLimit
      · by_cases h4 : isParticipant s cid sender <;> simp [joinChit, h1, h2, h3, h4] at h
      · simp [joinChit, h1, h2, h3] at h
    · simp [joinChit, h1, h2] at h
  · exact joinChit_notFound

/-! ## Counter and trace lemmas -/

theorem createChit_counter {s s' : ChitFund} {now : Nat} {sender : Address}
    {t d : String} {ta ia pl dl newId : Nat}
    (h : createChit s now sender t d ta ia pl dl = .ok (s', newId)) :
    newId = s.chitCounter + 1 ∧ s'.chitCounter = s.chitCounter + 1 := by
  obtain ⟨-, -, -, -, -, -, hid, hs⟩ := createChit_ok_elim h
  subst hs
  exact ⟨hid, rfl⟩

theorem joinChit_counter {s s' : ChitFund} {now : Nat} {sender : Address} {cid : Nat}
    (h : joinChit s now sender cid = .ok s') :
    s'.chitCounter = s.chitCounter := by
  obtain ⟨-, -, -, -, hs⟩ := joinChit_ok_elim h
  subst hs
  rfl

/-- Case split on one call: either it was a successful creation, with the
id `chitCounter + 1` returned and the counter advanced, or it allocated no
id and left the counter unchanged. -/
theorem applyOp_cases (s : ChitFund) (op : Op) :
    ((applyOp s op).2 = some (s.chitCounter + 1) ∧
      (applyOp s op).1.chitCounter = s.chitCounter + 1) ∨
    ((applyOp s op).2 = none ∧ (applyOp s op).1.chitCounter = s.chitCounter) := by
  cases op with
  | create now sender t d ta ia pl dl =>
    cases h : createChit s now sender t d ta ia pl dl with
    | ok r =>
      obtain ⟨s', nid⟩ := r
      obtain ⟨hid, hc⟩ := createChit_counter h
      left
      simp [applyOp, h, hid, hc]
    | error e =>
      right
      simp [applyOp, h]
  | join now sender cid =>
    cases h : joinChit s now sender cid with
    | ok s' =>
      right
      simp [applyOp, h, joinChit_counter h]
    | error e =>
      right
      simp [applyOp, h]

theorem execFrom_cons (s : ChitFund) (op : Op) (ops : List Op) :
    execFrom s (op :: ops) = execFrom (step s op) ops := rfl

/-- The ids handed out along any call sequence from state `s` are the
consecutive block starting right after `s.chitCounter`, and the final
counter has advanced by exactly the number of ids handed out. -/
theorem runIds_spec (ops : List Op) : ∀ s : ChitFund,
    runIds s ops = List.range' (s.chitCounter + 1) (runIds s ops).length ∧
    (execFrom s ops).chitCounter = s.chitCounter + (runIds s ops).length := by
  induction ops with
  | nil => intro s; simp [runIds, execFrom]
  | cons op rest ih =>
    intro s
    have hstep : step s op = (applyOp s op).1 := rfl
    rcases applyOp_cases s op with ⟨hsome, hc⟩ | ⟨hnone, hc⟩
    · have hrun : runIds s (op :: rest) =
          (s.chitCounter + 1) :: runIds (applyOp s op).1 rest := by
        rw [runIds]
        rcases hap : applyOp s op with ⟨s', oid⟩
        rw [hap] at hsome
        simp only [Prod.snd] at hsome
        rw [hsome]
      obtain ⟨ih1, ih2⟩ := ih (applyOp s op).1
      rw [hc] at ih1 ih2
      constructor
      · rw [hrun, List.length_cons, List.range'_succ]
        exact congrArg (List.cons (s.chitCounter + 1)) ih1
      · rw [execFrom_cons, hstep, ih2, hrun, List.length_cons]
        omega
    · have hrun : runIds s (op :: rest) = runIds (applyOp s op).1 rest := by
        rw [runIds]
        rcases hap : applyOp s op with ⟨s', oid⟩
        rw [hap] at hnone
        simp only [Prod.snd] at hnone
        rw [hnone]
      obtain ⟨ih1, ih2⟩ := ih (applyOp s op).1
      rw [hc] at ih1 ih2
      constructor
      · rw [hrun]
        exact ih1
      · rw [execFrom_cons, hstep, ih2, hrun]

/-! ## The ledger invariant and its preservation -/

/-- The invariant every reachable contract state satisfies:
unallocated slots are zero-initialised, allocated slots carry their own
key as `id`, capacity and duplicate-freedom hold per pool, and the
reverse index `userChits` agrees exactly with pool membership. -/
structure LedgerInv (s : ChitFund) : Prop where
  fresh : ∀ k, (k = 0 ∨ s.chitCounter < k) → s.chits k = defaultChit
  ids : ∀ k, 1 ≤ k → k ≤ s.chitCounter → (s.chits k).id = k
  cap : ∀ k, (s.chits k).participants.length ≤ (s.chits k).participantLimit
  nodup : ∀ k, (s.chits k).participants.Nodup
  index : ∀ m p, p ∈ s.userChits m ↔ m ∈ (s.chits p).participants

theorem inv_init : LedgerInv ChitFund.init := by
  refine ⟨fun k _ => rfl, fun k h1 h2 => ?_, fun k => ?_, fun k => ?_, fun m p => ?_⟩
  · exact absurd (Nat.le_trans h1 h2) (by simp [ChitFund.init])
  · simp [ChitFund.init, defaultChit]
  · simp [ChitFund.init, defaultChit]
  · simp [ChitFund.init, defaultChit]

theorem inv_create_ok {s s' : ChitFund} {now : Nat} {sender : Address}
    {t d : String} {ta ia pl dl newId : Nat} (inv : LedgerInv s)
    (h : createChit s now sender t d ta ia pl dl = .ok (s', newId)) : LedgerInv s' := by
  obtain ⟨-, -, -, -, hpl, -, -, hs⟩ := createChit_ok_elim h
  have hslot : s.chits (s.chitCounter + 1) = defaultChit :=
    inv.fresh _ (Or.inr (Nat.lt_succ_self _))
  subst hs
  refine ⟨fun k hk => ?_, fun k h1 h2 => ?_, fun k => ?_, fun k => ?_, fun m p => ?_⟩
  · by_cases hke : k = s.chitCounter + 1
    · subst hke
      simp only at hk
      omega
    · simp only [hke, if_false, ite_false]
      refine inv.fresh k ?_
      simp only at hk
      omega
  · by_cases hke : k = s.chitCounter + 1
    · simp [hke]
    · simp only [hke, if_false, ite_false]
      simp only at h2
      exact inv.ids k h1 (by omega)
  · by_cases hke : k = s.chitCounter + 1
    · simp only [hke, if_pos, ite_true]
      rw [hslot]
      simp [defaultChit]
      omega
    · simp only [hke, if_false, ite_false]
      exact inv.cap k
  · by_cases hke : k = s.chitCounter + 1
    · simp only [hke, if_pos, ite_true]
      rw [hslot]
      simp [defaultChit]
    · simp only [hke, if_false, ite_false]
      exact inv.nodup k
  · by_cases hp : p = s.chitCounter + 1
    · subst hp
      by_cases hm : m = sender
      · subst hm
        simp [hslot, defaultChit]
      · simp only [hm, if_false, ite_false, if_pos, ite_true]
        rw [hslot]
        constructor
        · intro hmem
          have := (inv.index m (s.chitCounter + 1)).mp hmem
          rw [hslot] at this
          simp [defaultChit] at this
        · intro hmem
          simp [defaultChit, hm] at hmem
    · by_cases hm : m = sender
      · subst hm
        simp only [if_pos, ite_true, hp, if_false, ite_false]
        rw [List.mem_append]
        simp only [List.mem_singleton]
        constructor
        · rintro (hmem | rfl)
          · exact (inv.index _ p).mp hmem
          · exact absurd rfl hp
        · intro hmem
          exact Or.inl ((inv.index _ p).mpr hmem)
      · simp only [hm, hp, if_false, ite_false]
        exact inv.index m p

theorem inv_join_ok {s s' : ChitFund} {now : Nat} {sender : Address} {cid : Nat}
    (inv : LedgerInv s) (h : joinChit s now sender cid = .ok s') : LedgerInv s' := by
  obtain ⟨h1, -, h3, h4, hs⟩ := joinChit_ok_elim h
  have hcid : ¬ (cid = 0 ∨ s.chitCounter < cid) := by
    intro hk
    exact h1 (by rw [inv.fresh cid hk]; rfl)
  subst hs
  refine ⟨fun k hk => ?_, fun k hk1 hk2 => ?_, fun k => ?_, fun k => ?_, fun m p => ?_⟩
  · have hke : k ≠ cid := by
      intro hke
      subst hke
      exact hcid (by simpa using hk)
    simp only [hke, if_false, ite_false]
    exact inv.fresh k (by simpa using hk)
  · by_cases hke : k = cid
    · subst hke
      simp only [if_pos, ite_true]
      exact inv.ids k hk1 (by simpa using hk2)
    · simp only [hke, if_false, ite_false] at *
      exact inv.ids k hk1 hk2
  · by_cases hke : k = cid
    · subst hke
      simp only [if_pos, ite_true, List.length_append, List.length_singleton]
      omega
    · simp only [hke, if_false, ite_false]
      exact inv.cap k
  · by_cases hke : k = cid
    · subst hke
      simp only [if_pos, ite_true]
      rw [List.nodup_append]
      exact ⟨inv.nodup k, List.nodup_singleton sender,
        by simpa [List.disjoint_singleton] using h4⟩
    · simp only [hke, if_false, ite_false]
      exact inv.nodup k
  · by_cases hp : p = cid
    · subst hp
      by_cases hm : m = sender
      · subst hm
        simp
      · simp only [hm, if_false, ite_false, if_pos, ite_true]
        rw [List.mem_append]
        simp only [List.mem_singleton, hm, or_false]
        exact inv.index m p
    · by_cases hm : m = sender
      · subst hm
        simp only [if_pos, ite_true, hp, if_false, ite_false]
        rw [List.mem_append]
        simp only [List.mem_singleton]
        constructor
        · rintro (hmem | rfl)
          · exact (inv.index _ p).mp hmem
          · exact absurd rfl hp
        · intro hmem
          exact Or.inl ((inv.index _ p).mpr hmem)
      · simp only [hm, hp, if_false, ite_false]
        exact inv.index m p

theorem inv_step {s : ChitFund} (inv : LedgerInv s) (op : Op) : LedgerInv (step s op) := by
  cases op with
  | create now sender t d ta ia pl dl =>
    cases h : createChit s now sender t d ta ia pl dl with
    | ok r =>
      obtain ⟨s', nid⟩ := r
      simpa [step, applyOp, h] using inv_create_ok inv h
    | error e => simpa [step, applyOp, h] using inv
  | join now sender cid =>
    cases h : joinChit s now sender cid with
    | ok s' => simpa [step, applyOp, h] using inv_join_ok inv h
    | error e => simpa [step, applyOp, h] using inv

theorem inv_execFrom {s : ChitFund} (inv : LedgerInv s) (ops : List Op) :
    LedgerInv (execFrom s ops) := by
  induction ops generalizing s with
  | nil => exact inv
  | cons op rest ih => exact ih (inv_step inv op)

theorem inv_execTrace (ops : List Op) : LedgerInv (execTrace ops) :=
  inv_execFrom inv_init ops

/-! ## The claims -/

/-- C1 (counterexample): the claim says `getParticipants` fails with
`NotFound` on a never-allocated id. In the freshly deployed state id 1 was
never allocated, yet the source's `getParticipants` does not fail: it
returns the value `[]`, diverging from the spec-modelled
`getParticipantsSpec`, which returns the `NotFound` error there. -/
theorem claim_C1_counterexample :
    Except.ok (getParticipants ChitFund.init 1) ≠ getParticipantsSpec ChitFund.init 1 ∧
    getParticipants ChitFund.init 1 = [] ∧
    getParticipantsSpec ChitFund.init 1 = .error .NotFound := by
  refine ⟨fun h => ?_, rfl, rfl⟩
  simp [getParticipants, getParticipantsSpec, ChitFund.init, defaultChit] at h

/-- C1 (amended): `getParticipants` never fails. For every id never
allocated by a successful creation it returns the empty sequence, and for
every id it returns exactly the stored participants sequence (in stored
order); it is a pure function of the state, so it has no side effects. -/
theorem claim_C1 (ops : List Op) (cid : Nat) :
    ((cid = 0 ∨ (execTrace ops).chitCounter < cid) →
      getParticipants (execTrace ops) cid = []) ∧
    getParticipants (execTrace ops) cid = ((execTrace ops).chits cid).participants := by
  refine ⟨fun h => ?_, rfl⟩
  rw [getParticipants, (inv_execTrace ops).fresh cid h]
  rfl

theorem claim_C1_witness :
    getParticipants (execTrace []) 3 = [] ∧
    getParticipants (execTrace [Op.create 0 7 "t" "d" 100 10 2 5]) 1 =
      ((execTrace [Op.create 0 7 "t" "d" 100 10 2 5]).chits 1).participants :=
  ⟨(claim_C1 [] 3).1 (by decide), (claim_C1 [Op.create 0 7 "t" "d" 100 10 2 5] 1).2⟩

/-- C2: `joinChit` evaluates its failure conditions in the fixed source
order existence → deadline → capacity → duplicate membership: a missing
pool always reports `NotFound`; an existing pool whose deadline has passed
(`now ≥ deadline`) always reports `Expired`, regardless of capacity or
membership — in particular a full pool past its deadline reports `Expired`,
not `Full`; capacity is only reported on a live pool; duplicate membership
only on a live, non-full pool. -/
theorem claim_C2 (s : ChitFund) (now : Nat) (sender : Address) (cid : Nat) :
    ((s.chits cid).id = 0 → joinChit s now sender cid = .error .NotFound) ∧
    ((s.chits cid).id ≠ 0 → (s.chits cid).deadline ≤ now →
      joinChit s now sender cid = .error .Expired) ∧
    ((s.chits cid).id ≠ 0 → now < (s.chits cid).deadline →
      (s.chits cid).participantLimit ≤ (s.chits cid).participants.length →
      joinChit s now sender cid = .error .Full) ∧
    ((s.chits cid).id ≠ 0 → now < (s.chits cid).deadline →
      (s.chits cid).participants.length < (s.chits cid).participantLimit →
      sender ∈ (s.chits cid).participants →
      joinChit s now sender cid = .error .AlreadyJoined) :=
  ⟨joinChit_notFound,
   fun h1 h2 => joinChit_expired h1 (by omega),
   fun h1 h2 h3 => joinChit_full h1 h2 (by omega),
   joinChit_alreadyJoined⟩

theorem claim_C2_witness :
    joinChit (execTrace []) 5 9 1 = .error .NotFound ∧
    joinChit (execTrace [Op.create 0 7 "t" "d" 100 10 1 5]) 6 9 1 = .error .Expired ∧
    joinChit (execTrace [Op.create 0 7 "t" "d" 100 10 1 5]) 1 9 1 = .error .Full ∧
    joinChit (execTrace [Op.create 0 7 "t" "d" 100 10 2 5]) 1 7 1 = .error .AlreadyJoined :=
  ⟨(claim_C2 (execTrace []) 5 9 1).1 (by decide),
   (claim_C2 (execTrace [Op.create 0 7 "t" "d" 100 10 1 5]) 6 9 1).2.1
     (by decide) (by decide),
   (claim_C2 (execTrace [Op.create 0 7 "t" "d" 100 10 1 5]) 1 9 1).2.2.1
     (by decide) (by decide) (by decide),
   (claim_C2 (execTrace [Op.create 0 7 "t" "d" 100 10 2 5]) 1 7 1).2.2.2
     (by decide) (by decide) (by decide) (by decide)⟩

/-- C3: over any call sequence — successful and failed calls alike — the
ids returned by the successful creations are exactly `1, 2, 3, …` in
commit order (the consecutive range starting at 1, with no gaps or
repeats), and the counter ends at exactly the number of successful
creations, so failed attempts never advance it. -/
theorem claim_C3 (ops : List Op) :
    runIds ChitFund.init ops = List.range' 1 (runIds ChitFund.init ops).length ∧
    (execTrace ops).chitCounter = (runIds ChitFund.init ops).length := by
  have h := runIds_spec ops ChitFund.init
  simpa [ChitFund.init, execTrace] using h

/-- C4: in every reachable state every pool satisfies
`participants.length ≤ participantLimit`, and a join attempted at capacity
on a pool that passes the existence and deadline checks fails with `Full`
(so a pool with limit `k` never admits more than `k` members, the creator
included). -/
theorem claim_C4 (ops : List Op) :
    (∀ k, ((execTrace ops).chits k).participants.length ≤
      ((execTrace ops).chits k).participantLimit) ∧
    (∀ now sender cid, ((execTrace ops).chits cid).id ≠ 0 →
      now < ((execTrace ops).chits cid).deadline →
      ((execTrace ops).chits cid).participantLimit ≤
        ((execTrace ops).chits cid).participants.length →
      joinChit (execTrace ops) now sender cid = .error .Full) :=
  ⟨(inv_execTrace ops).cap,
   fun now sender cid h1 h2 h3 => joinChit_full h1 h2 (by omega)⟩

theorem claim_C4_witness :
    ((execTrace [Op.create 0 3 "a" "b" 50 5 1 9]).chits 1).participants.length ≤
      ((execTrace [Op.create 0 3 "a" "b" 50 5 1 9]).chits 1).participantLimit ∧
    joinChit (execTrace [Op.create 0 3 "a" "b" 50 5 1 9]) 2 11 1 = .error .Full :=
  ⟨(claim_C4 [Op.create 0 3 "a" "b" 50 5 1 9]).1 1,
   (claim_C4 [Op.create 0 3 "a" "b" 50 5 1 9]).2 2 11 1
     (by decide) (by decide) (by decide)⟩

/-- C5: after every call sequence the membership index agrees exactly with
the pool store: `p ∈ userChits[m]` iff `m` appears in
`chits[p].participants`. -/
theorem claim_C5 (ops : List Op) (m : Address) (p : Nat) :
    p ∈ (execTrace ops).userChits m ↔ m ∈ ((execTrace ops).chits p).participants :=
  (inv_execTrace ops).index m p

/-- C6: joining a pool that exists, is not past its deadline and is not
full always fails with `AlreadyJoined` when the joining member already
appears in `participants` — the creator, being a participant since
creation, included — and in every reachable state no member identity
appears twice in any pool's participants sequence. -/
theorem claim_C6 (ops : List Op) (now : Nat) (sender : Address) (cid k : Nat) :
    (((execTrace ops).chits cid).id ≠ 0 →
      now < ((execTrace ops).chits cid).deadline →
      ((execTrace ops).chits cid).participants.length <
        ((execTrace ops).chits cid).participantLimit →
      sender ∈ ((execTrace ops).chits cid).participants →
      joinChit (execTrace ops) now sender cid = .error .AlreadyJoined) ∧
    ((execTrace ops).chits k).participants.Nodup :=
  ⟨joinChit_alreadyJoined, (inv_execTrace ops).nodup k⟩

theorem claim_C6_witness :
    joinChit (execTrace [Op.create 2 4 "p" "q" 60 6 3 8]) 3 4 1 =
      .error .AlreadyJoined ∧
    ((execTrace [Op.create 2 4 "p" "q" 60 6 3 8]).chits 1).participants.Nodup :=
  ⟨(claim_C6 [Op.create 2 4 "p" "q" 60 6 3 8] 3 4 1 1).1
     (by decide) (by decide) (by decide) (by decide),
   (claim_C6 [Op.create 2 4 "p" "q" 60 6 3 8] 3 4 1 1).2⟩

/-- C7 (counterexample): the claim says creation fails with
`InvalidDeadline` exactly when the deadline is not strictly after the
current time. With an empty title and a past deadline (time 5, deadline 0)
the deadline condition holds, yet the call fails with `InvalidInput`, not
`InvalidDeadline`: the input checks run first. -/
theorem claim_C7_counterexample :
    ¬ (5 : Nat) < 0 ∧
    createChit ChitFund.init 5 7 "" "d" 1 1 1 0 = .error .InvalidInput ∧
    createChit ChitFund.init 5 7 "" "d" 1 1 1 0 ≠ .error .InvalidDeadline := by
  refine ⟨by decide, rfl, fun h => ?_⟩
  rw [createChit_invalidDeadline_iff] at h
  exact h.1 rfl

/-- On a reachable state, a successful creation stores the new pool with
`participants = [creator]` and `createdAt = now` (the slot it builds on is
still zero-initialised because its id was never allocated before). -/
theorem createChit_on_trace {ops : List Op} {now : Nat} {sender : Address}
    {t d : String} {ta ia pl dl newId : Nat} {s' : ChitFund}
    (h : createChit (execTrace ops) now sender t d ta ia pl dl = .ok (s', newId)) :
    (s'.chits newId).participants = [sender] ∧ (s'.chits newId).createdAt = now := by
  obtain ⟨-, -, -, -, -, -, hid, hs⟩ := createChit_ok_elim h
  have hslot : (execTrace ops).chits ((execTrace ops).chitCounter + 1) = defaultChit :=
    (inv_execTrace ops).fresh _ (Or.inr (Nat.lt_succ_self _))
  subst hs hid
  constructor
  · simp [hslot, defaultChit]
  · simp

/-- C7 (amended): on any reachable state, creation fails with
`InvalidInput` exactly when the title or description is empty or
`totalAmount`, `installmentAmount` or `participantLimit` is zero; it fails
with `InvalidDeadline` exactly when those input checks all pass and the
deadline is not strictly after the current time (the input checks take
precedence); any failure leaves the store, counter and index unchanged;
and a success stores the new pool with `participants = [creator]` and
`createdAt = now`. -/
theorem claim_C7 (ops : List Op) (now : Nat) (sender : Address)
    (t d : String) (ta ia pl dl : Nat) :
    (createChit (execTrace ops) now sender t d ta ia pl dl = .error .InvalidInput ↔
      (t = "" ∨ d = "" ∨ ta = 0 ∨ ia = 0 ∨ pl = 0)) ∧
    (createChit (execTrace ops) now sender t d ta ia pl dl = .error .InvalidDeadline ↔
      (t ≠ "" ∧ d ≠ "" ∧ ta ≠ 0 ∧ ia ≠ 0 ∧ pl ≠ 0 ∧ ¬ now < dl)) ∧
    (∀ e, createChit (execTrace ops) now sender t d ta ia pl dl = .error e →
      step (execTrace ops) (Op.create now sender t d ta ia pl dl) = execTrace ops) ∧
    (∀ s' newId,
      createChit (execTrace ops) now sender t d ta ia pl dl = .ok (s', newId) →
      (s'.chits newId).participants = [sender] ∧ (s'.chits newId).createdAt = now) := by
  refine ⟨createChit_invalidInput_iff, createChit_invalidDeadline_iff,
    fun e h => ?_, fun s' newId h => createChit_on_trace h⟩
  simp [step, applyOp, h]

theorem claim_C7_witness :
    ((execTrace [Op.create 1 8 "w" "x" 30 3 4 6]).chits 1).participants = [8] ∧
    ((execTrace [Op.create 1 8 "w" "x" 30 3 4 6]).chits 1).createdAt = 1 ∧
    step (execTrace []) (Op.create 5 8 "" "x" 1 1 1 9) = execTrace [] := by
  have h4 := (claim_C7 [] 1 8 "w" "x" 30 3 4 6).2.2.2
    (execTrace [Op.create 1 8 "w" "x" 30 3 4 6]) 1 rfl
  have h3 := (claim_C7 [] 5 8 "" "x" 1 1 1 9).2.2.1 ChitError.InvalidInput rfl
  exact ⟨h4.1, h4.2, h3⟩

/-- C8: after any call sequence with `N` successful creations, `getChits`
returns exactly `N` pools, and for every `i < N` the `i`-th element is the
stored pool `chits[i+1]`, whose id is `i+1` — ascending ids `1..N` with no
gaps. -/
theorem claim_C8 (ops : List Op) (i : Nat) :
    (getChits (execTrace ops)).length = (runIds ChitFund.init ops).length ∧
    (i < (runIds ChitFund.init ops).length →
      (getChits (execTrace ops)).getD i defaultChit = (execTrace ops).chits (i + 1) ∧
      ((getChits (execTrace ops)).getD i defaultChit).id = i + 1) := by
  have hN : (execTrace ops).chitCounter = (runIds ChitFund.init ops).length := by
    have h := runIds_spec ops ChitFund.init
    simpa [ChitFund.init, execTrace] using h.2
  have hlen : (getChits (execTrace ops)).length = (execTrace ops).chitCounter := by
    simp [getChits]
  refine ⟨by rw [hlen, hN], fun hi => ?_⟩
  have hi' : i < (getChits (execTrace ops)).length := by rw [hlen, hN]; exact hi
  have hval : (getChits (execTrace ops)).getD i defaultChit =
      (execTrace ops).chits (i + 1) := by
    rw [List.getD_eq_getElem _ _ hi']
    simp [getChits]
  refine ⟨hval, ?_⟩
  rw [hval]
  exact (inv_execTrace ops).ids (i + 1) (by omega) (by omega)

theorem claim_C8_witness :
    (getChits (execTrace [Op.create 0 6 "m" "n" 20 2 2 7])).length = 1 ∧
    (getChits (execTrace [Op.create 0 6 "m" "n" 20 2 2 7])).getD 0 defaultChit =
      (execTrace [Op.create 0 6 "m" "n" 20 2 2 7]).chits 1 ∧
    ((getChits (execTrace [Op.create 0 6 "m" "n" 20 2 2 7])).getD 0 defaultChit).id = 1 := by
  have h := claim_C8 [Op.create 0 6 "m" "n" 20 2 2 7] 0
  have h2 := h.2 (by decide)
  refine ⟨?_, h2.1, h2.2⟩
  rw [h.1]
  decide

/-- C9: a successful join changes only the joined pool's `participants`
field, by appending the new member: every other field of that pool, the
counter, and every other pool's record are unchanged, the head of the
participants sequence (the creator, placed there at creation) is
preserved, and a successful creation on a reachable state stores
`participants = [creator]`. -/
theorem claim_C9 (s s' : ChitFund) (now : Nat) (sender : Address) (cid : Nat)
    (ops : List Op) (cnow : Nat) (creator : Address) (t d : String)
    (ta ia pl dl : Nat) (s2 : ChitFund) (newId : Nat) :
    (joinChit s now sender cid = .ok s' →
      (s'.chits cid).participants = (s.chits cid).participants ++ [sender] ∧
      (s'.chits cid).id = (s.chits cid).id ∧
      (s'.chits cid).title = (s.chits cid).title ∧
      (s'.chits cid).description = (s.chits cid).description ∧
      (s'.chits cid).totalAmount = (s.chits cid).totalAmount ∧
      (s'.chits cid).installmentAmount = (s.chits cid).installmentAmount ∧
      (s'.chits cid).deadline = (s.chits cid).deadline ∧
      (s'.chits cid).createdAt = (s.chits cid).createdAt ∧
      (s'.chits cid).participantLimit = (s.chits cid).participantLimit ∧
      (s'.chits cid).isCompleted = (s.chits cid).isCompleted ∧
      s'.chitCounter = s.chitCounter ∧
      (∀ k, k ≠ cid → s'.chits k = s.chits k) ∧
      (∀ a, (s.chits cid).participants.head? = some a →
        (s'.chits cid).participants.head? = some a)) ∧
    (createChit (execTrace ops) cnow creator t d ta ia pl dl = .ok (s2, newId) →
      (s2.chits newId).participants = [creator]) := by
  constructor
  · intro h
    obtain ⟨-, -, -, -, hs⟩ := joinChit_ok_elim h
    subst hs
    refine ⟨by simp, by simp, by simp, by simp, by simp, by simp, by simp, by simp,
      by simp, by simp, rfl, fun k hk => by simp [hk], fun a ha => ?_⟩
    dsimp only
    rw [if_pos rfl]
    dsimp only
    cases hl : (s.chits cid).participants with
    | nil => rw [hl] at ha; cases ha
    | cons x xs =>
      rw [hl] at ha
      simpa using ha
  · intro h
    exact (createChit_on_trace h).1

theorem claim_C9_witness :
    ((execTrace [Op.create 0 5 "y" "z" 40 4 3 9, Op.join 1 6 1]).chits 1).participants =
      ((execTrace [Op.create 0 5 "y" "z" 40 4 3 9]).chits 1).participants ++ [6] ∧
    ((execTrace [Op.create 0 5 "y" "z" 40 4 3 9, Op.join 1 6 1]).chits 1).deadline =
      ((execTrace [Op.create 0 5 "y" "z" 40 4 3 9]).chits 1).deadline ∧
    ((execTrace [Op.create 0 5 "y" "z" 40 4 3 9, Op.join 1 6 1]).chits 1).participants.head? =
      some 5 ∧
    ((execTrace [Op.create 0 5 "y" "z" 40 4 3 9]).chits 1).participants = [5] := by
  have hj := (claim_C9 (execTrace [Op.create 0 5 "y" "z" 40 4 3 9])
      (execTrace [Op.create 0 5 "y" "z" 40 4 3 9, Op.join 1 6 1]) 1 6 1
      [] 0 5 "y" "z" 40 4 3 9 (execTrace [Op.create 0 5 "y" "z" 40 4 3 9]) 1).1 rfl
  have hc := (claim_C9 (execTrace [Op.create 0 5 "y" "z" 40 4 3 9])
      (execTrace [Op.create 0 5 "y" "z" 40 4 3 9, Op.join 1 6 1]) 1 6 1
      [] 0 5 "y" "z" 40 4 3 9 (execTrace [Op.create 0 5 "y" "z" 40 4 3 9]) 1).2 rfl
  exact ⟨hj.1, hj.2.2.2.2.2.2.1,
    hj.2.2.2.2.2.2.2.2.2.2.2.2 5 (by decide), hc⟩

/-- C10: in every reachable state each allocated id `k` (with
`1 ≤ k ≤ chitCounter`) stores a record with `id = k`; nothing is ever
stored under key 0 or beyond the counter (those slots stay
zero-initialised); and `joinChit` fails with `NotFound` exactly on the
never-allocated ids — `joinChit(0)` included. -/
theorem claim_C10 (ops : List Op) (now : Nat) (sender : Address) (cid k : Nat) :
    (1 ≤ k → k ≤ (execTrace ops).chitCounter → ((execTrace ops).chits k).id = k) ∧
    (execTrace ops).chits 0 = defaultChit ∧
    ((execTrace ops).chitCounter < k → (execTrace ops).chits k = defaultChit) ∧
    (joinChit (execTrace ops) now sender cid = .error .NotFound ↔
      (cid = 0 ∨ (execTrace ops).chitCounter < cid)) := by
  have inv := inv_execTrace ops
  refine ⟨inv.ids k, inv.fresh 0 (Or.inl rfl), fun h => inv.fresh k (Or.inr h), ?_⟩
  rw [joinChit_notFound_iff]
  constructor
  · intro h
    by_contra hc
    push_neg at hc
    rw [inv.ids cid (by omega) (by omega)] at h
    omega
  · intro h
    rw [inv.fresh cid h]
    rfl

theorem claim_C10_witness :
    ((execTrace [Op.create 0 9 "g" "h" 10 1 2 4]).chits 1).id = 1 ∧
    (execTrace [Op.create 0 9 "g" "h" 10 1 2 4]).chits 2 = defaultChit ∧
    joinChit (execTrace [Op.create 0 9 "g" "h" 10 1 2 4]) 1 9 0 = .error .NotFound :=
  ⟨(claim_C10 [Op.create 0 9 "g" "h" 10 1 2 4] 1 9 0 1).1 (by decide) (by decide),
   (claim_C10 [Op.create 0 9 "g" "h" 10 1 2 4] 1 9 0 2).2.2.1 (by decide),
   (claim_C10 [Op.create 0 9 "g" "h" 10 1 2 4] 1 9 0 1).2.2.2.mpr (Or.inl rfl)⟩
